import Mathlib

/-
Verification of the Goldsky order-filled harvester (src/update_utils/update_goldsky.py).

The development shallowly embeds the two components of the program:

* `get_latest_cursor` — cursor recovery from the CSV store file
  (update_goldsky.py lines 20-63).  The file is modelled as
  `Option (List (List String))`: `none` is an absent file, otherwise the
  list of lines, each line already split on commas into its fields.
* `scrape` — the paginated harvest loop (update_goldsky.py lines 65-193).
  One loop iteration is `scrapeStep`; the remote GraphQL source is a fixed
  list of events and `fetch` returns the first `at_once` events matching
  the where-clause in (timestamp, id) ascending order, which is the
  interface contract of the remote source (spec section 6).

Machine integers do not overflow here (timestamps are seconds since epoch);
timestamps of events are `Nat` and the timestamp cursor is `Int` because
recovery returns `last_timestamp - 1`, which may be `-1`.  Event ids are
compared as opaque strings, byte-lexicographically, exactly as Python and
the remote source compare them; `strLtB` implements that comparison on the
character lists so that all comparisons compute.
-/

/-- Lexicographic comparison of strings as character lists.  This is the
comparison Python applies to `id` strings and the one the remote source
uses for `id_gt`; it is structurally recursive so that it evaluates. -/
def strLtB : List Char → List Char → Bool
  | [], [] => false
  | [], _ :: _ => true
  | _ :: _, [] => false
  | a :: as, b :: bs => if a < b then true else if b < a then false else strLtB as bs

/-- Strict `<` on event ids (opaque string comparison). -/
def idLt (a b : String) : Prop := strLtB a.data b.data = true

/-- Non-strict `≤` on event ids, as the negation of strict `>` . -/
def idLe (a b : String) : Prop := strLtB b.data a.data = false

instance (a b : String) : Decidable (idLt a b) :=
  inferInstanceAs (Decidable (strLtB a.data b.data = true))

instance (a b : String) : Decidable (idLe a b) :=
  inferInstanceAs (Decidable (strLtB b.data a.data = false))

/-- An order-filled event as seen by the harvester core: its pagination
cursor fields.  The payload columns (maker, taker, amounts, transaction
hash) are persisted verbatim and never inspected by the core (spec
section 3), so they are not part of the embedded record. -/
structure Event where
  timestamp : Nat
  id : String
deriving DecidableEq, Repr

/-- The `(timestamp, id)` non-strict lexicographic order used by
`df.sort_values(['timestamp', 'id'], ascending=True)` (line 138). -/
def eventLe (a b : Event) : Prop :=
  a.timestamp < b.timestamp ∨ (a.timestamp = b.timestamp ∧ idLe a.id b.id)

/-- The strict `(timestamp, id)` lexicographic order. -/
def eventLt (a b : Event) : Prop :=
  a.timestamp < b.timestamp ∨ (a.timestamp = b.timestamp ∧ idLt a.id b.id)

instance : DecidableRel eventLe :=
  fun a b =>
    inferInstanceAs
      (Decidable (a.timestamp < b.timestamp ∨ (a.timestamp = b.timestamp ∧ idLe a.id b.id)))

instance : DecidableRel eventLt :=
  fun a b =>
    inferInstanceAs
      (Decidable (a.timestamp < b.timestamp ∨ (a.timestamp = b.timestamp ∧ idLt a.id b.id)))

/-- The where-clause of the GraphQL query built at lines 87-92: either
`timestamp_gt: T` (normal mode) or `timestamp: T, id_gt: I` (sticky). -/
inductive Where where
  | tsGt (t : Int)
  | tsEqIdGt (t : Nat) (i : String)
deriving DecidableEq, Repr

/-- Whether an event satisfies a where-clause. -/
def matchWhere : Where → Event → Bool
  | Where.tsGt t, e => decide (t < (e.timestamp : Int))
  | Where.tsEqIdGt s i, e => decide (e.timestamp = s) && decide (idLt i e.id)

/-- Defensive re-sort of a batch by `(timestamp, id)` ascending
(line 138 of the source). -/
def sortBatch (batch : List Event) : List Event :=
  List.insertionSort eventLe batch

/-- The remote source: `orderFilledEvents(orderBy: timestamp, orderDirection:
asc, first: n, where: w)` returns the first `n` events matching `w` in
`(timestamp, id)` ascending order (spec section 6: ordered by timestamp
ascending, then implicitly id ascending). -/
def fetch (remote : List Event) (w : Where) (n : Nat) : List Event :=
  (sortBatch (remote.filter (matchWhere w))).take n

/-- `timestamp` of `df.iloc[-1]` (line 140); `0` is never used on the
non-empty batches the loop applies it to. -/
def lastTs (l : List Event) : Nat :=
  (l.getLast?.map Event.timestamp).getD 0

/-- `id` of `df.iloc[-1]` (line 141). -/
def lastId (l : List Event) : String :=
  (l.getLast?.map Event.id).getD ""

/-- `timestamp` of `df.iloc[0]` (line 142). -/
def firstTs (l : List Event) : Nat :=
  (l.head?.map Event.timestamp).getD 0

/-- `df.drop_duplicates(subset=['id'])` (line 177): keep the first
occurrence of every id, scanning the batch left to right. -/
def dedupByIdAux (seen : List String) : List Event → List Event
  | [] => []
  | e :: rest =>
    if e.id ∈ seen then dedupByIdAux seen rest
    else e :: dedupByIdAux (e.id :: seen) rest

/-- Batch-local deduplication by `id`.  It looks only at the batch itself,
never at the store. -/
def dropDuplicatesById (l : List Event) : List Event :=
  dedupByIdAux [] l

/-- The loop state of `scrape`: the cursor variables `last_timestamp`,
`last_id`, `sticky_timestamp` (lines 71-77), the counters `count` and
`total_records` (lines 72-73), and the store file contents (the rows of
goldsky/orderFilled.csv appended so far, each row identified with the
event it came from). -/
structure ScrapeState where
  last_timestamp : Int
  last_id : Option String
  sticky_timestamp : Option Nat
  store : List Event
  count : Nat
  total_records : Nat
deriving DecidableEq, Repr

/-- The where-clause built at the top of each loop iteration
(lines 87-92).  In sticky mode the code interpolates `last_id` into the
query string; a Python `None` would render as the literal string "None",
which `Option.getD` reproduces. -/
def buildWhere (st : ScrapeState) : Where :=
  match st.sticky_timestamp with
  | some s => Where.tsEqIdGt s (st.last_id.getD ("None"))
  | none => Where.tsGt st.last_timestamp

/-- Cursor update for a non-empty batch (lines 147-171).  The two sub-cases
of a full batch (all events at one timestamp at line 149, mixed timestamps
at line 154) perform the same assignments and differ only in the log
message, but both are kept. -/
def advanceState (at_once : Nat) (st : ScrapeState) (df : List Event) : ScrapeState :=
  if at_once ≤ df.length then
    if firstTs df = lastTs df then
      { st with sticky_timestamp := some (lastTs df), last_id := some (lastId df) }
    else
      { st with sticky_timestamp := some (lastTs df), last_id := some (lastId df) }
  else
    match st.sticky_timestamp with
    | some s =>
      { st with last_timestamp := (s : Int), sticky_timestamp := none, last_id := none }
    | none => { st with last_timestamp := (lastTs df : Int) }

/-- Counter update and append of the deduplicated batch to the store
(lines 173-186).  `total_records` counts the batch before deduplication,
as in the source; the append itself is `store ++ dropDuplicatesById df`
and does not depend on the store contents. -/
def appendBatch (st : ScrapeState) (df : List Event) : ScrapeState :=
  { st with
    count := st.count + 1,
    total_records := st.total_records + df.length,
    store := st.store ++ dropDuplicatesById df }

/-- Outcome of one loop iteration: continue with a new state, or leave the
loop with a final state. -/
inductive StepRes where
  | next (st : ScrapeState)
  | done (st : ScrapeState)
deriving DecidableEq, Repr

/-- One iteration of the `while True` loop of `scrape` on a successfully
fetched batch (lines 125-189).  Empty batch: lines 125-133.  Non-empty
batch: defensive sort (line 138), cursor update (lines 147-171), counters
and append (lines 173-186), and the loop exit test
`len(df) < at_once and sticky_timestamp is None` (line 188), which reads
`sticky_timestamp` after the cursor update and `df` after the
deduplication at line 177 reassigned it. -/
def scrapeStep (at_once : Nat) (st : ScrapeState) (batch : List Event) : StepRes :=
  if batch.isEmpty then
    match st.sticky_timestamp with
    | some s =>
      StepRes.next { st with last_timestamp := (s : Int), sticky_timestamp := none, last_id := none }
    | none => StepRes.done st
  else
    let df := sortBatch batch
    let st2 := appendBatch (advanceState at_once st df) df
    if (dropDuplicatesById df).length < at_once ∧
        (advanceState at_once st df).sticky_timestamp = none then
      StepRes.done st2
    else StepRes.next st2

/-- Result of `client.execute(query)` inside the try/except of
lines 117-123: either a transport/query error or a batch of events. -/
inductive FetchResult where
  | err
  | ok (batch : List Event)
deriving Repr

/-- One iteration of the loop including the error handler: on a query
error the code prints, sleeps 5 seconds and `continue`s (lines 119-123),
touching neither the cursor variables nor the store, so the next iteration
rebuilds the identical where-clause and retries.  (The real-time delay
itself has no counterpart in the model.) -/
def scrapeIter (at_once : Nat) (st : ScrapeState) (r : FetchResult) : StepRes :=
  match r with
  | FetchResult.err => StepRes.next st
  | FetchResult.ok batch => scrapeStep at_once st batch

/-- The harvest loop, deterministically fetching from a fixed remote with
no transport errors, with `fuel` bounding the number of iterations:
`none` means the loop did not finish within `fuel` iterations, `some` is
the state after a completed run. -/
def runScrape (remote : List Event) (at_once : Nat) : Nat → ScrapeState → Option ScrapeState
  | 0, _ => none
  | fuel + 1, st =>
    match scrapeIter at_once st (FetchResult.ok (fetch remote (buildWhere st) at_once)) with
    | StepRes.next st2 => runScrape remote at_once fuel st2
    | StepRes.done st2 => some st2

/-- Event-level reading of `get_latest_cursor` (lines 20-63): an absent or
empty store yields `(0, none)`; otherwise the cursor is the timestamp of
the last persisted record minus one, with no id.  `c6_cursor_recovery`
relates the full file-level model below to exactly this contract. -/
def recoverCursor (store : List Event) : Int × Option String :=
  match store.getLast? with
  | none => (0, none)
  | some e => ((e.timestamp : Int) - 1, none)

/-- The state at the top of the loop: cursor seeded from the store by
recovery (line 71), counters zero (lines 72-73), sticky mode off
(line 77). -/
def initState (store0 : List Event) : ScrapeState :=
  { last_timestamp := (recoverCursor store0).1
    last_id := (recoverCursor store0).2
    sticky_timestamp := none
    store := store0
    count := 0
    total_records := 0 }

/-- `scrape(at_once)` (lines 65-193) against a fixed remote and an
existing store (`[]` if the store file is absent). -/
def scrape (remote : List Event) (at_once fuel : Nat) (store0 : List Event) : Option ScrapeState :=
  runScrape remote at_once fuel (initState store0)

/-- `COLUMNS_TO_SAVE` (line 15): the store header.  The `id` column is not
persisted. -/
def COLUMNS_TO_SAVE : List String :=
  ["timestamp", "maker", "makerAssetId", "makerAmountFilled",
   "taker", "takerAssetId", "takerAmountFilled", "transactionHash"]

/-- Python `int(...)` on the strings this program writes and reads: an
optional leading minus sign followed by decimal digits. -/
def digitVal? (c : Char) : Option Nat :=
  if c.isDigit then some (c.toNat - 48) else none

/-- Accumulating decimal reader. -/
def digitsToNatGo (acc : Nat) : List Char → Option Nat
  | [] => some acc
  | c :: cs =>
    match digitVal? c with
    | some d => digitsToNatGo (acc * 10 + d) cs
    | none => none

/-- Decimal digits to a natural number; fails on an empty list or a
non-digit. -/
def digitsToNat? (cs : List Char) : Option Nat :=
  if cs.isEmpty then none else digitsToNatGo 0 cs

/-- `int(s)` for the timestamps in the store: `none` models a raised
`ValueError`. -/
def parseInt? (s : String) : Option Int :=
  match s.data with
  | [] => none
  | c :: cs =>
    if c = '-' then (digitsToNat? cs).map (fun m => -(m : Int))
    else (digitsToNat? (c :: cs)).map (fun m => (m : Int))

/-- The pandas fallback of `get_latest_cursor` (lines 50-59): re-read the
whole CSV, and if it has at least one data row and a `timestamp` column,
return the last row's timestamp minus one; on any further failure fall
through to `(0, none)`. -/
def pandasFallback (lines : List (List String)) : Int × Option String :=
  match lines with
  | [] => (0, none)
  | headers :: dataRows =>
    if 0 < dataRows.length ∧ headers.contains ("timestamp") then
      match (dataRows.getLast?.getD []).get? (headers.indexOf ("timestamp")) with
      | some v =>
        match parseInt? v with
        | some t => (t - 1, none)
        | none => (0, none)
      | none => (0, none)
    else (0, none)

/-- `get_latest_cursor` (lines 20-63).  The store file is `none` when
absent, otherwise the list of its lines, each line split on commas
(a blank line is `[]`).  The tail path reads the last line, locates the
`timestamp` column through the header, and parses the field; a parse
failure models the `int()` exception and falls back to pandas; every
other failure falls through to `(0, none)`.  The function is total:
recovery never raises to its caller. -/
def get_latest_cursor (file : Option (List (List String))) : Int × Option String :=
  match file with
  | none => (0, none)
  | some lines =>
    match lines.getLast? with
    | none => (0, none)
    | some lastLine =>
      if lastLine = [] then (0, none)
      else
        let headers := lines.head?.getD []
        if headers.contains ("timestamp") then
          let ti := headers.indexOf ("timestamp")
          if ti < lastLine.length then
            match parseInt? ((lastLine.get? ti).getD ("")) with
            | some t => (t - 1, none)
            | none => pandasFallback lines
          else (0, none)
        else (0, none)

/-- The timestamp field of the last persisted record, as the spec words it
(section 4.1): the field of the last line under the header's `timestamp`
column, read as an integer.  `none` when the file is empty or malformed.
This is the spec-side definition against which `get_latest_cursor` is
compared in `c6_cursor_recovery`. -/
def specLastRecordTimestamp (lines : List (List String)) : Option Int :=
  match lines.head? with
  | none => none
  | some headers =>
    if headers.contains ("timestamp") then
      match (lines.getLast?.getD []).get? (headers.indexOf ("timestamp")) with
      | some v => parseInt? v
      | none => none
    else none

/-- Decimal digits of a natural number, most significant first; the text
pandas writes into the `timestamp` column of the store. -/
def natToDigits (n : Nat) : List Char :=
  if n < 10 then [Nat.digitChar n]
  else natToDigits (n / 10) ++ [Nat.digitChar (n % 10)]
termination_by n
decreasing_by exact Nat.div_lt_self (by omega) (by omega)

/-- Decimal rendering of a natural number. -/
def natToString (n : Nat) : String :=
  String.mk (natToDigits n)

/-- One CSV row of the store as the program writes it: the timestamp in
decimal first, then the seven payload columns (opaque to the core, stood
in for by placeholder fields). -/
def encodeRow (e : Event) : List String :=
  [natToString e.timestamp, "m", "a", "f", "t", "x", "y", "h"]

/-- The store file a run leaves behind: the `COLUMNS_TO_SAVE` header, then
one row per appended event.  `get_latest_cursor_encode` proves that
recovery on this file computes exactly the event-level `recoverCursor`
used by the loop model. -/
def encodeStore (store : List Event) : List (List String) :=
  COLUMNS_TO_SAVE :: store.map encodeRow

/-- The invariant that makes the harvest loop correct when it starts from an
empty store: the store is strictly sorted by `(timestamp, id)`, and the
cursor dominates everything persisted so far — in normal mode every stored
timestamp is at most `last_timestamp` (and `last_id` is clear), in sticky
mode every stored event is strictly below the sticky timestamp or at it
with an id at most `last_id`. -/
def LoopInv (st : ScrapeState) : Prop :=
  st.store.Pairwise eventLt ∧
  ((st.sticky_timestamp = none ∧ st.last_id = none ∧
      ∀ e ∈ st.store, (e.timestamp : Int) ≤ st.last_timestamp) ∨
   (∃ s i, st.sticky_timestamp = some s ∧ st.last_id = some i ∧
      ∀ e ∈ st.store, e.timestamp < s ∨ (e.timestamp = s ∧ idLe e.id i)))

/-- The two legal cursor shapes (spec section 3): a plain timestamp cursor
(no id, not sticky) or a sticky cursor (timestamp and id both present). -/
def CursorShape (st : ScrapeState) : Prop :=
  (st.sticky_timestamp = none ∧ st.last_id = none) ∨
  (∃ s i, st.sticky_timestamp = some s ∧ st.last_id = some i)

/-- Remote state used by the no-gap and termination failing inputs: three
events share timestamp 1 (page size will be 2), one later event sits at
timestamp 2. -/
def remoteGap : List Event :=
  [⟨1, "a"⟩, ⟨1, "b"⟩, ⟨1, "c"⟩, ⟨2, "d"⟩]

/-- Remote state with a single event, for the resume counterexample. -/
def remoteOne : List Event :=
  [⟨5, "a"⟩]

/-- Remote state with two events at one timestamp, for the ordering and
duplicate counterexamples. -/
def remotePair : List Event :=
  [⟨5, "a"⟩, ⟨5, "b"⟩]

lemma strLtB_irrefl : ∀ l : List Char, strLtB l l = false
  | [] => rfl
  | c :: cs => by
    unfold strLtB
    rw [if_neg (lt_irrefl c), if_neg (lt_irrefl c)]
    exact strLtB_irrefl cs

lemma strLtB_trans : ∀ (l1 l2 l3 : List Char),
    strLtB l1 l2 = true → strLtB l2 l3 = true → strLtB l1 l3 = true
  | _, l2, [], _, h2 => by cases l2 <;> simp [strLtB] at h2
  | [], _, _ :: _, _, _ => rfl
  | _ :: _, [], _ :: _, h1, _ => by simp [strLtB] at h1
  | a :: as, b :: bs, c :: cs, h1, h2 => by
    unfold strLtB at h1 h2 ⊢
    rcases lt_trichotomy a b with hab | hab | hab
    · rcases lt_trichotomy b c with hbc | hbc | hbc
      · rw [if_pos (lt_trans hab hbc)]
      · subst hbc; rw [if_pos hab]
      · exfalso
        rw [if_neg (lt_asymm hbc), if_pos hbc] at h2
        exact Bool.false_ne_true h2
    · subst hab
      rw [if_neg (lt_irrefl a), if_neg (lt_irrefl a)] at h1
      rcases lt_trichotomy a c with hbc | hbc | hbc
      · rw [if_pos hbc]
      · subst hbc
        rw [if_neg (lt_irrefl a), if_neg (lt_irrefl a)] at h2 ⊢
        exact strLtB_trans as bs cs h1 h2
      · exfalso
        rw [if_neg (lt_asymm hbc), if_pos hbc] at h2
        exact Bool.false_ne_true h2
    · exfalso
      rw [if_neg (lt_asymm hab), if_pos hab] at h1
      exact Bool.false_ne_true h1

lemma strLtB_eq_of_false : ∀ (l1 l2 : List Char),
    strLtB l1 l2 = false → strLtB l2 l1 = false → l1 = l2
  | [], [], _, _ => rfl
  | [], _ :: _, h1, _ => by simp [strLtB] at h1
  | _ :: _, [], _, h2 => by simp [strLtB] at h2
  | a :: as, b :: bs, h1, h2 => by
    unfold strLtB at h1 h2
    rcases lt_trichotomy a b with hab | hab | hab
    · rw [if_pos hab] at h1
      exact absurd h1 (by simp)
    · subst hab
      rw [if_neg (lt_irrefl a), if_neg (lt_irrefl a)] at h1 h2
      rw [strLtB_eq_of_false as bs h1 h2]
    · rw [if_pos hab] at h2
      exact absurd h2 (by simp)

lemma string_ext {a b : String} (h : a.data = b.data) : a = b :=
  congrArg String.mk h

lemma idLe_refl (a : String) : idLe a a :=
  strLtB_irrefl a.data

lemma idLe_of_not_idLt {a b : String} (h : ¬ idLt b a) : idLe a b := by
  unfold idLt at h
  unfold idLe
  cases hx : strLtB b.data a.data
  · rfl
  · exact absurd hx h

lemma idLt_or_eq_of_idLe {a b : String} (h : idLe a b) : idLt a b ∨ a = b := by
  unfold idLe at h
  cases hx : strLtB a.data b.data
  · exact Or.inr (string_ext (strLtB_eq_of_false _ _ hx h))
  · exact Or.inl hx

lemma idLt_irrefl (a : String) : ¬ idLt a a := by
  unfold idLt
  rw [strLtB_irrefl a.data]
  simp

lemma idLe_of_idLt {a b : String} (h : idLt a b) : idLe a b := by
  unfold idLt at h
  unfold idLe
  cases hx : strLtB b.data a.data
  · rfl
  · exact absurd (strLtB_trans _ _ _ h hx) (by rw [strLtB_irrefl a.data]; simp)

lemma idLt_of_idLe_of_ne {a b : String} (h : idLe a b) (hne : a ≠ b) : idLt a b := by
  rcases idLt_or_eq_of_idLe h with h1 | h1
  · exact h1
  · exact absurd h1 hne

lemma idLt_trans {a b c : String} (h1 : idLt a b) (h2 : idLt b c) : idLt a c :=
  strLtB_trans _ _ _ h1 h2

lemma idLe_trans {a b c : String} (h1 : idLe a b) (h2 : idLe b c) : idLe a c := by
  rcases idLt_or_eq_of_idLe h1 with h1 | h1
  · rcases idLt_or_eq_of_idLe h2 with h2 | h2
    · exact idLe_of_idLt (idLt_trans h1 h2)
    · subst h2; exact idLe_of_idLt h1
  · subst h1; exact h2

lemma idLt_of_idLe_of_idLt {a b c : String} (h1 : idLe a b) (h2 : idLt b c) : idLt a c := by
  rcases idLt_or_eq_of_idLe h1 with h1 | h1
  · exact idLt_trans h1 h2
  · subst h1; exact h2

lemma idLe_total (a b : String) : idLe a b ∨ idLe b a := by
  unfold idLe
  cases hx : strLtB b.data a.data
  · exact Or.inl rfl
  · cases hy : strLtB a.data b.data
    · exact Or.inr rfl
    · exact absurd (strLtB_trans _ _ _ hx hy) (by rw [strLtB_irrefl b.data]; simp)

lemma eventLe_refl (a : Event) : eventLe a a :=
  Or.inr ⟨rfl, idLe_refl a.id⟩

lemma eventLe_trans {a b c : Event} (h1 : eventLe a b) (h2 : eventLe b c) : eventLe a c := by
  rcases h1 with h1 | ⟨he1, hi1⟩
  · rcases h2 with h2 | ⟨he2, hi2⟩
    · exact Or.inl (lt_trans h1 h2)
    · exact Or.inl (he2 ▸ h1)
  · rcases h2 with h2 | ⟨he2, hi2⟩
    · exact Or.inl (he1 ▸ h2)
    · exact Or.inr ⟨he1.trans he2, idLe_trans hi1 hi2⟩

lemma eventLe_total (a b : Event) : eventLe a b ∨ eventLe b a := by
  unfold eventLe
  rcases lt_trichotomy a.timestamp b.timestamp with h | h | h
  · exact Or.inl (Or.inl h)
  · rcases idLe_total a.id b.id with hi | hi
    · exact Or.inl (Or.inr ⟨h, hi⟩)
    · exact Or.inr (Or.inr ⟨h.symm, hi⟩)
  · exact Or.inr (Or.inl h)

instance : IsTotal Event eventLe :=
  ⟨eventLe_total⟩

instance : IsTrans Event eventLe :=
  ⟨fun _ _ _ => eventLe_trans⟩

lemma eventLt_irrefl (a : Event) : ¬ eventLt a a := by
  rintro (h | ⟨-, h⟩)
  · exact lt_irrefl _ h
  · exact idLt_irrefl _ h

lemma eventLt_ne {a b : Event} (h : eventLt a b) : a ≠ b := by
  rintro rfl
  exact eventLt_irrefl a h

lemma eventLe_of_eventLt {a b : Event} (h : eventLt a b) : eventLe a b := by
  rcases h with h | ⟨he, hi⟩
  · exact Or.inl h
  · exact Or.inr ⟨he, idLe_of_idLt hi⟩

lemma eventLt_of_eventLe_of_ne_id {a b : Event} (h : eventLe a b) (hne : a.id ≠ b.id) :
    eventLt a b := by
  rcases h with h | ⟨he, hi⟩
  · exact Or.inl h
  · exact Or.inr ⟨he, idLt_of_idLe_of_ne hi hne⟩

lemma sortBatch_sorted (l : List Event) : (sortBatch l).Sorted eventLe :=
  List.sorted_insertionSort eventLe l

lemma mem_sortBatch {l : List Event} {x : Event} : x ∈ sortBatch l ↔ x ∈ l :=
  List.mem_insertionSort eventLe

lemma sortBatch_length (l : List Event) : (sortBatch l).length = l.length :=
  (List.perm_insertionSort eventLe l).length_eq

lemma sortBatch_ne_nil {l : List Event} (h : l ≠ []) : sortBatch l ≠ [] := by
  intro hs
  apply h
  have := sortBatch_length l
  rw [hs] at this
  exact List.length_eq_zero.mp this.symm

lemma mem_fetch {remote : List Event} {w : Where} {n : Nat} {e : Event}
    (h : e ∈ fetch remote w n) : matchWhere w e = true ∧ e ∈ remote := by
  have h1 : e ∈ sortBatch (remote.filter (matchWhere w)) := List.take_subset n _ h
  have h2 : e ∈ remote.filter (matchWhere w) := mem_sortBatch.mp h1
  have h3 := List.mem_filter.mp h2
  exact ⟨h3.2, h3.1⟩

lemma fetch_ne_nil {remote : List Event} {w : Where} {n : Nat} {e : Event}
    (hn : 0 < n) (he : e ∈ remote) (hw : matchWhere w e = true) :
    fetch remote w n ≠ [] := by
  have h1 : e ∈ remote.filter (matchWhere w) := List.mem_filter.mpr ⟨he, hw⟩
  have h2 : remote.filter (matchWhere w) ≠ [] := List.ne_nil_of_mem h1
  have h3 : 0 < (sortBatch (remote.filter (matchWhere w))).length := by
    rw [sortBatch_length]
    exact List.length_pos.mpr h2
  apply List.length_pos.mp
  unfold fetch
  rw [List.length_take]
  exact lt_min hn h3

lemma getLast?_mem : ∀ {l : List Event} {x : Event}, l.getLast? = some x → x ∈ l := by
  intro l x h
  rcases List.mem_getLast?_eq_getLast (by rw [Option.mem_def, h]) with ⟨hne, rfl⟩
  exact List.getLast_mem hne

lemma exists_getLast? {l : List Event} (h : l ≠ []) : ∃ x, l.getLast? = some x := by
  cases hx : l.getLast? with
  | none => exact absurd (List.getLast?_eq_none_iff.mp hx) h
  | some x => exact ⟨x, rfl⟩

lemma sorted_rel_getLast :
    ∀ {l : List Event}, l.Sorted eventLe →
      ∀ {e x : Event}, e ∈ l → l.getLast? = some x → eventLe e x := by
  intro l
  induction l with
  | nil => intro _ e x he; exact absurd he (List.not_mem_nil e)
  | cons a t ih =>
    intro hs e x he hx
    cases t with
    | nil =>
      rcases List.mem_singleton.mp he with rfl
      rcases Option.some_inj.mp hx with rfl
      exact eventLe_refl e
    | cons b t2 =>
      rw [List.getLast?_cons_cons] at hx
      rcases List.mem_cons.mp he with rfl | he2
      · have hxmem : x ∈ b :: t2 := getLast?_mem hx
        exact (List.sorted_cons.mp hs).1 x hxmem
      · exact ih (List.Sorted.of_cons hs) he2 hx

lemma dedupByIdAux_sublist : ∀ (l : List Event) (seen : List String),
    (dedupByIdAux seen l).Sublist l
  | [], _ => List.Sublist.refl []
  | e :: rest, seen => by
    unfold dedupByIdAux
    split
    · exact (dedupByIdAux_sublist rest seen).cons e
    · exact (dedupByIdAux_sublist rest (e.id :: seen)).cons₂ e

lemma dropDuplicatesById_sublist (l : List Event) : (dropDuplicatesById l).Sublist l :=
  dedupByIdAux_sublist l []

lemma dropDuplicatesById_subset {l : List Event} {e : Event}
    (h : e ∈ dropDuplicatesById l) : e ∈ l :=
  (dropDuplicatesById_sublist l).subset h

lemma dedupByIdAux_not_seen : ∀ (l : List Event) (seen : List String) (e : Event),
    e ∈ dedupByIdAux seen l → e.id ∉ seen
  | [], _, e => by intro h; exact absurd h (List.not_mem_nil e)
  | a :: rest, seen, e => by
    intro h
    unfold dedupByIdAux at h
    split at h
    · exact dedupByIdAux_not_seen rest seen e h
    · rcases List.mem_cons.mp h with rfl | h2
      · assumption
      · have := dedupByIdAux_not_seen rest (a.id :: seen) e h2
        intro hc
        exact this (List.mem_cons_of_mem _ hc)

lemma dedupByIdAux_ids_nodup : ∀ (l : List Event) (seen : List String),
    ((dedupByIdAux seen l).map Event.id).Nodup
  | [], _ => List.nodup_nil
  | a :: rest, seen => by
    unfold dedupByIdAux
    split
    · exact dedupByIdAux_ids_nodup rest seen
    · rw [List.map_cons, List.nodup_cons]
      refine ⟨?_, dedupByIdAux_ids_nodup rest (a.id :: seen)⟩
      intro hmem
      rcases List.mem_map.mp hmem with ⟨b, hb, hid⟩
      exact dedupByIdAux_not_seen rest (a.id :: seen) b hb (hid ▸ List.mem_cons_self _ _)

lemma dropDuplicatesById_ids_nodup (l : List Event) :
    ((dropDuplicatesById l).map Event.id).Nodup :=
  dedupByIdAux_ids_nodup l []

lemma dropDuplicatesById_ne_nil {l : List Event} (h : l ≠ []) :
    dropDuplicatesById l ≠ [] := by
  cases l with
  | nil => exact absurd rfl h
  | cons a rest =>
    unfold dropDuplicatesById dedupByIdAux
    rw [if_neg (List.not_mem_nil a.id)]
    exact List.cons_ne_nil a _

lemma dropDuplicatesById_pairwise_lt {l : List Event} (hs : l.Sorted eventLe) :
    (dropDuplicatesById l).Pairwise eventLt := by
  have h1 : (dropDuplicatesById l).Pairwise eventLe :=
    List.Pairwise.sublist (dropDuplicatesById_sublist l) hs
  have h2 : (dropDuplicatesById l).Pairwise (fun a b => a.id ≠ b.id) := by
    have := dropDuplicatesById_ids_nodup l
    rw [List.Nodup, List.pairwise_map] at this
    exact this
  exact (h1.and h2).imp fun h => eventLt_of_eventLe_of_ne_id h.1 h.2

lemma scrapeStep_nil_sticky {n : Nat} {st : ScrapeState} {s : Nat}
    (h : st.sticky_timestamp = some s) :
    scrapeStep n st [] =
      StepRes.next
        { st with last_timestamp := (s : Int), sticky_timestamp := none, last_id := none } := by
  simp [scrapeStep, h]

lemma scrapeStep_nil_normal {n : Nat} {st : ScrapeState}
    (h : st.sticky_timestamp = none) :
    scrapeStep n st [] = StepRes.done st := by
  simp [scrapeStep, h]

lemma scrapeStep_cons {n : Nat} {st : ScrapeState} {batch : List Event} (hb : batch ≠ []) :
    scrapeStep n st batch =
      if (dropDuplicatesById (sortBatch batch)).length < n ∧
          (advanceState n st (sortBatch batch)).sticky_timestamp = none then
        StepRes.done (appendBatch (advanceState n st (sortBatch batch)) (sortBatch batch))
      else
        StepRes.next (appendBatch (advanceState n st (sortBatch batch)) (sortBatch batch)) := by
  simp [scrapeStep, hb]

lemma scrapeStep_cons_state {n : Nat} {st st' : ScrapeState} {batch : List Event}
    (hb : batch ≠ [])
    (h : scrapeStep n st batch = StepRes.next st' ∨ scrapeStep n st batch = StepRes.done st') :
    st' = appendBatch (advanceState n st (sortBatch batch)) (sortBatch batch) := by
  rw [scrapeStep_cons hb] at h
  rcases h with h | h <;> split at h <;> simp_all

lemma advanceState_full {n : Nat} {st : ScrapeState} {df : List Event}
    (h : n ≤ df.length) :
    advanceState n st df =
      { st with sticky_timestamp := some (lastTs df), last_id := some (lastId df) } := by
  unfold advanceState
  rw [if_pos h]
  split <;> rfl

lemma advanceState_short_sticky {n : Nat} {st : ScrapeState} {df : List Event} {s : Nat}
    (hlen : ¬ n ≤ df.length) (h : st.sticky_timestamp = some s) :
    advanceState n st df =
      { st with last_timestamp := (s : Int), sticky_timestamp := none, last_id := none } := by
  simp [advanceState, hlen, h]

lemma advanceState_short_normal {n : Nat} {st : ScrapeState} {df : List Event}
    (hlen : ¬ n ≤ df.length) (h : st.sticky_timestamp = none) :
    advanceState n st df = { st with last_timestamp := (lastTs df : Int) } := by
  simp [advanceState, hlen, h]

lemma exists_last_of_ne_nil {l : List Event} (h : l ≠ []) :
    ∃ x, l.getLast? = some x ∧ lastTs l = x.timestamp ∧ lastId l = x.id ∧ x ∈ l := by
  rcases exists_getLast? h with ⟨x, hx⟩
  exact ⟨x, hx, by simp [lastTs, hx], by simp [lastId, hx], getLast?_mem hx⟩

lemma store_lt_batch {remote : List Event} {n : Nat} {st : ScrapeState}
    (hInv : LoopInv st) {a b : Event} (ha : a ∈ st.store)
    (hb : b ∈ fetch remote (buildWhere st) n) : eventLt a b := by
  obtain ⟨hpw, hbr⟩ := hInv
  have hw := (mem_fetch hb).1
  rcases hbr with ⟨hstk, hid, hbound⟩ | ⟨s, i, hstk, hid, hbound⟩
  · simp only [buildWhere, hstk] at hw
    have hlt : st.last_timestamp < (b.timestamp : Int) := by
      simpa [matchWhere] using hw
    have hts := hbound a ha
    exact Or.inl (by omega)
  · simp only [buildWhere, hstk, hid, Option.getD_some] at hw
    have hw2 : b.timestamp = s ∧ idLt i b.id := by
      simpa [matchWhere, Bool.and_eq_true, decide_eq_true_iff] using hw
    rcases hbound a ha with hlt | ⟨heq, hle⟩
    · exact Or.inl (by omega)
    · exact Or.inr ⟨by omega, idLt_of_idLe_of_idLt hle hw2.2⟩

lemma loopInv_step {remote : List Event} {n : Nat} {st st' : ScrapeState}
    (hInv : LoopInv st)
    (h : scrapeStep n st (fetch remote (buildWhere st) n) = StepRes.next st' ∨
         scrapeStep n st (fetch remote (buildWhere st) n) = StepRes.done st') :
    LoopInv st' := by
  by_cases hb : fetch remote (buildWhere st) n = []
  · rw [hb] at h
    obtain ⟨hpw, hbr⟩ := hInv
    rcases hbr with ⟨hstk, hid, hbound⟩ | ⟨s, i, hstk, hid, hbound⟩
    · rw [scrapeStep_nil_normal hstk] at h
      have hst' : st' = st := by
        rcases h with h | h
        · exact absurd h (by simp)
        · injection h with h2; exact h2.symm
      subst hst'
      exact ⟨hpw, Or.inl ⟨hstk, hid, hbound⟩⟩
    · rw [scrapeStep_nil_sticky hstk] at h
      have hst' : st' =
          { st with last_timestamp := (s : Int), sticky_timestamp := none, last_id := none } := by
        rcases h with h | h
        · injection h with h2; exact h2.symm
        · exact absurd h (by simp)
      subst hst'
      refine ⟨hpw, Or.inl ⟨rfl, rfl, ?_⟩⟩
      intro e he
      rcases hbound e he with hlt | ⟨heq, -⟩
      · show (e.timestamp : Int) ≤ (s : Int)
        omega
      · show (e.timestamp : Int) ≤ (s : Int)
        omega
  · have hst' := scrapeStep_cons_state hb h
    have hdfne : sortBatch (fetch remote (buildWhere st) n) ≠ [] := sortBatch_ne_nil hb
    obtain ⟨x, hxlast, hxts, hxid, hxmem⟩ := exists_last_of_ne_nil hdfne
    have hsorted := sortBatch_sorted (fetch remote (buildWhere st) n)
    have hxmax : ∀ e ∈ sortBatch (fetch remote (buildWhere st) n), eventLe e x :=
      fun e he => sorted_rel_getLast hsorted he hxlast
    have hxfetch : x ∈ fetch remote (buildWhere st) n := mem_sortBatch.mp hxmem
    have hcross : ∀ a ∈ st.store, ∀ b ∈ sortBatch (fetch remote (buildWhere st) n), eventLt a b :=
      fun a ha b hbm => store_lt_batch hInv ha (mem_sortBatch.mp hbm)
    have hpw2 : (st.store ++ dropDuplicatesById (sortBatch (fetch remote (buildWhere st) n))).Pairwise eventLt := by
      rw [List.pairwise_append]
      exact ⟨hInv.1, dropDuplicatesById_pairwise_lt hsorted,
        fun a ha b hbm => hcross a ha b (dropDuplicatesById_subset hbm)⟩
    obtain ⟨hpw, hbr⟩ := hInv
    by_cases hfull : n ≤ (sortBatch (fetch remote (buildWhere st) n)).length
    · rw [advanceState_full hfull] at hst'
      subst hst'
      refine ⟨hpw2, Or.inr ⟨lastTs _, lastId _, rfl, rfl, ?_⟩⟩
      intro e he
      rcases List.mem_append.mp he with he2 | he2
      · rcases hcross e he2 x hxmem with hlt | ⟨heq, hlt⟩
        · exact Or.inl (by omega)
        · exact Or.inr ⟨by omega, by rw [hxid]; exact idLe_of_idLt hlt⟩
      · rcases hxmax e (dropDuplicatesById_subset he2) with hlt | ⟨heq, hle⟩
        · exact Or.inl (by omega)
        · exact Or.inr ⟨by omega, by rw [hxid]; exact hle⟩
    · rcases hbr with ⟨hstk, hid, hbound⟩ | ⟨s, i, hstk, hid, hbound⟩
      · rw [advanceState_short_normal hfull hstk] at hst'
        subst hst'
        refine ⟨hpw2, Or.inl ⟨hstk, hid, ?_⟩⟩
        have hwx := (mem_fetch hxfetch).1
        simp only [buildWhere, hstk] at hwx
        have hlt : st.last_timestamp < (x.timestamp : Int) := by
          simpa [matchWhere] using hwx
        intro e he
        rcases List.mem_append.mp he with he2 | he2
        · have := hbound e he2
          show (e.timestamp : Int) ≤ (lastTs (sortBatch (fetch remote (buildWhere st) n)) : Int)
          omega
        · rcases hxmax e (dropDuplicatesById_subset he2) with h2 | ⟨h2, -⟩
          · show (e.timestamp : Int) ≤ (lastTs (sortBatch (fetch remote (buildWhere st) n)) : Int)
            omega
          · show (e.timestamp : Int) ≤ (lastTs (sortBatch (fetch remote (buildWhere st) n)) : Int)
            omega
      · rw [advanceState_short_sticky hfull hstk] at hst'
        subst hst'
        refine ⟨hpw2, Or.inl ⟨rfl, rfl, ?_⟩⟩
        intro e he
        rcases List.mem_append.mp he with he2 | he2
        · rcases hbound e he2 with h2 | ⟨h2, -⟩
          · show (e.timestamp : Int) ≤ (s : Int)
            omega
          · show (e.timestamp : Int) ≤ (s : Int)
            omega
        · have hef : e ∈ fetch remote (buildWhere st) n :=
            mem_sortBatch.mp (dropDuplicatesById_subset he2)
          have hwe := (mem_fetch hef).1
          simp only [buildWhere, hstk, hid, Option.getD_some] at hwe
          have hw2 : e.timestamp = s ∧ idLt i e.id := by
            simpa [matchWhere, Bool.and_eq_true, decide_eq_true_iff] using hwe
          show (e.timestamp : Int) ≤ (s : Int)
          omega

lemma cursorShape_step {n : Nat} {st st' : ScrapeState} {batch : List Event}
    (hsh : CursorShape st)
    (h : scrapeStep n st batch = StepRes.next st' ∨ scrapeStep n st batch = StepRes.done st') :
    CursorShape st' := by
  by_cases hb : batch = []
  · subst hb
    rcases hsh with ⟨hstk, hid⟩ | ⟨s, i, hstk, hid⟩
    · rw [scrapeStep_nil_normal hstk] at h
      have hst' : st' = st := by
        rcases h with h | h
        · exact absurd h (by simp)
        · injection h with h2; exact h2.symm
      subst hst'
      exact Or.inl ⟨hstk, hid⟩
    · rw [scrapeStep_nil_sticky hstk] at h
      have hst' : st' =
          { st with last_timestamp := (s : Int), sticky_timestamp := none, last_id := none } := by
        rcases h with h | h
        · injection h with h2; exact h2.symm
        · exact absurd h (by simp)
      subst hst'
      exact Or.inl ⟨rfl, rfl⟩
  · have hst' := scrapeStep_cons_state hb h
    subst hst'
    by_cases hfull : n ≤ (sortBatch batch).length
    · rw [advanceState_full hfull]
      exact Or.inr ⟨lastTs _, lastId _, rfl, rfl⟩
    · rcases hsh with ⟨hstk, hid⟩ | ⟨s, i, hstk, hid⟩
      · rw [advanceState_short_normal hfull hstk]
        exact Or.inl ⟨hstk, hid⟩
      · rw [advanceState_short_sticky hfull hstk]
        exact Or.inl ⟨rfl, rfl⟩

lemma recoverCursor_snd (store0 : List Event) : (recoverCursor store0).2 = none := by
  unfold recoverCursor
  cases store0.getLast? <;> rfl

lemma cursorShape_init (store0 : List Event) : CursorShape (initState store0) :=
  Or.inl ⟨rfl, recoverCursor_snd store0⟩

lemma loopInv_init_empty : LoopInv (initState []) := by
  refine ⟨List.Pairwise.nil, Or.inl ⟨rfl, rfl, ?_⟩⟩
  intro e he
  exact absurd he (List.not_mem_nil e)

lemma scrapeStep_nil_store {n : Nat} {st st' : ScrapeState}
    (h : scrapeStep n st [] = StepRes.next st' ∨ scrapeStep n st [] = StepRes.done st') :
    st'.store = st.store := by
  cases hstk : st.sticky_timestamp with
  | none =>
    rw [scrapeStep_nil_normal hstk] at h
    rcases h with h | h
    · exact absurd h (by simp)
    · injection h with h2; rw [← h2]
  | some s =>
    rw [scrapeStep_nil_sticky hstk] at h
    rcases h with h | h
    · injection h with h2; rw [← h2]
    · exact absurd h (by simp)

lemma scrapeStep_cons_store {n : Nat} {st st' : ScrapeState} {batch : List Event}
    (hb : batch ≠ [])
    (h : scrapeStep n st batch = StepRes.next st' ∨ scrapeStep n st batch = StepRes.done st') :
    st'.store = st.store ++ dropDuplicatesById (sortBatch batch) := by
  rw [scrapeStep_cons_state hb h]
  rcases h2 : advanceState n st (sortBatch batch) with st2
  unfold advanceState at h2
  split at h2
  · split at h2 <;> rw [← h2] <;> rfl
  · split at h2 <;> rw [← h2] <;> rfl

lemma scrapeStep_store_le {n : Nat} {st st' : ScrapeState} {batch : List Event}
    (h : scrapeStep n st batch = StepRes.next st' ∨ scrapeStep n st batch = StepRes.done st') :
    st.store.length ≤ st'.store.length := by
  by_cases hb : batch = []
  · subst hb
    rw [scrapeStep_nil_store h]
  · rw [scrapeStep_cons_store hb h, List.length_append]
    omega

lemma runScrape_store_le {remote : List Event} {n : Nat} :
    ∀ {fuel : Nat} {st f : ScrapeState},
      runScrape remote n fuel st = some f → st.store.length ≤ f.store.length := by
  intro fuel
  induction fuel with
  | zero => intro st f h; exact absurd h (by simp [runScrape])
  | succ k ih =>
    intro st f h
    simp only [runScrape, scrapeIter] at h
    rcases hstep : scrapeStep n st (fetch remote (buildWhere st) n) with st2 | st2 <;>
      rw [hstep] at h
    · exact le_trans (scrapeStep_store_le (Or.inl hstep)) (ih h)
    · have hf : f = st2 := by injection h with h2; exact h2.symm
      subst hf
      exact scrapeStep_store_le (Or.inr hstep)

lemma scrapeStep_store_mem {n : Nat} {st st' : ScrapeState} {batch : List Event}
    (h : scrapeStep n st batch = StepRes.next st' ∨ scrapeStep n st batch = StepRes.done st') :
    ∀ e ∈ st'.store, e ∈ st.store ∨ e ∈ batch := by
  intro e he
  by_cases hb : batch = []
  · subst hb
    rw [scrapeStep_nil_store h] at he
    exact Or.inl he
  · rw [scrapeStep_cons_store hb h] at he
    rcases List.mem_append.mp he with h2 | h2
    · exact Or.inl h2
    · exact Or.inr (mem_sortBatch.mp (dropDuplicatesById_subset h2))

lemma runScrape_store_mem {remote : List Event} {n : Nat} :
    ∀ {fuel : Nat} {st f : ScrapeState},
      runScrape remote n fuel st = some f →
      ∀ e ∈ f.store, e ∈ st.store ∨ e ∈ remote := by
  intro fuel
  induction fuel with
  | zero => intro st f h; exact absurd h (by simp [runScrape])
  | succ k ih =>
    intro st f h e he
    simp only [runScrape, scrapeIter] at h
    rcases hstep : scrapeStep n st (fetch remote (buildWhere st) n) with st2 | st2 <;>
      rw [hstep] at h
    · rcases ih h e he with h2 | h2
      · rcases scrapeStep_store_mem (Or.inl hstep) e h2 with h3 | h3
        · exact Or.inl h3
        · exact Or.inr (mem_fetch h3).2
      · exact Or.inr h2
    · have hf : f = st2 := by injection h with h2; exact h2.symm
      subst hf
      rcases scrapeStep_store_mem (Or.inr hstep) e he with h3 | h3
      · exact Or.inl h3
      · exact Or.inr (mem_fetch h3).2

lemma pandasFallback_none {hd lastLine : List String} {tl : List (List String)}
    (hlast : (hd :: tl).getLast? = some lastLine)
    (hp : parseInt? ((lastLine.get? (hd.indexOf "timestamp")).getD "") = none) :
    pandasFallback (hd :: tl) = (0, none) := by
  unfold pandasFallback
  dsimp only
  cases tl with
  | nil =>
    rw [if_neg]
    rintro ⟨h1, -⟩
    simp at h1
  | cons a t2 =>
    by_cases hc : hd.contains "timestamp"
    · rw [if_pos ⟨by simp, hc⟩]
      rw [List.getLast?_cons_cons] at hlast
      rw [hlast] at *
      simp only [Option.getD_some]
      cases hg : lastLine.get? (hd.indexOf "timestamp") with
      | none => rfl
      | some v =>
        rw [hg] at hp
        simp only [Option.getD_some] at hp
        dsimp only
        rw [hp]
    · rw [if_neg]
      rintro ⟨-, h2⟩
      exact absurd h2 hc

lemma glc_spec_eq (lines : List (List String)) :
    get_latest_cursor (some lines) =
      match specLastRecordTimestamp lines with
      | some L => (L - 1, none)
      | none => (0, none) := by
  cases hlast : lines.getLast? with
  | none =>
    have h0 : lines = [] := List.getLast?_eq_none_iff.mp hlast
    subst h0
    rfl
  | some lastLine =>
    obtain ⟨hd, tl, rfl⟩ : ∃ hd tl, lines = hd :: tl := by
      cases lines with
      | nil => simp at hlast
      | cons a t => exact ⟨a, t, rfl⟩
    have hL : get_latest_cursor (some (hd :: tl)) =
        (if lastLine = [] then (0, none)
         else if hd.contains "timestamp" then
           if hd.indexOf "timestamp" < lastLine.length then
             match parseInt? ((lastLine.get? (hd.indexOf "timestamp")).getD "") with
             | some t => (t - 1, none)
             | none => pandasFallback (hd :: tl)
           else (0, none)
         else (0, none)) := by
      unfold get_latest_cursor
      dsimp only
      rw [hlast]
      dsimp only [List.head?_cons, Option.getD_some]
    have hR : specLastRecordTimestamp (hd :: tl) =
        (if hd.contains "timestamp" then
          match lastLine.get? (hd.indexOf "timestamp") with
          | some v => parseInt? v
          | none => none
         else none) := by
      unfold specLastRecordTimestamp
      rw [List.head?_cons]
      dsimp only
      rw [hlast]
      rfl
    rw [hL, hR]
    by_cases hc : hd.contains "timestamp"
    · rw [if_pos hc, if_pos hc]
      by_cases hll : lastLine = []
      · subst hll
        rw [if_pos rfl]
        simp
      · rw [if_neg hll]
        by_cases hti : hd.indexOf "timestamp" < lastLine.length
        · rw [if_pos hti]
          obtain ⟨v, hv⟩ : ∃ v, lastLine.get? (hd.indexOf "timestamp") = some v := by
            cases hg : lastLine.get? (hd.indexOf "timestamp") with
            | none =>
              rw [List.get?_eq_none] at hg
              omega
            | some v => exact ⟨v, rfl⟩
          rw [hv]
          simp only [Option.getD_some]
          cases hp : parseInt? v with
          | none =>
            rw [pandasFallback_none hlast (by rw [hv]; simpa using hp)]
          | some t => rfl
        · rw [if_neg hti]
          have hg : lastLine.get? (hd.indexOf "timestamp") = none := by
            rw [List.get?_eq_none]
            omega
          rw [hg]
    · rw [if_neg hc, if_neg hc]
      split <;> rfl

/-- C1: the no-gap guarantee fails on the code.  With remote `remoteGap`
(events a, b, c at timestamp 1 and d at timestamp 2), page size 2 and an
empty store, the harvest run completes, yet the event at timestamp 2 —
present in the remote source — is absent from the final store: draining
sticky timestamp 1 with a short batch makes the loop exit test at line 188
fire (`len(df) < at_once` and `sticky_timestamp` was just cleared), so
strictly greater timestamps are never fetched.  This theorem evaluates the
embedded code at the failing input. -/
theorem c1_gap_failing :
    (scrape remoteGap 2 10 []).map ScrapeState.store =
      some [⟨1, "a"⟩, ⟨1, "b"⟩, ⟨1, "c"⟩] ∧
    (⟨2, "d"⟩ : Event) ∈ remoteGap ∧
    (scrape remoteGap 2 10 []).map (fun f => decide ((⟨2, "d"⟩ : Event) ∈ f.store)) =
      some false := by
  refine ⟨by decide, by decide, by decide⟩

/-- C2: the termination rule fails on the code.  A short batch fetched
while sticky (state: sticky at timestamp 1 after events a, b; the fetch
returns the single event c) makes the iteration return `done` — the exit
test at line 188 reads `sticky_timestamp` after the cursor update cleared
it — although the claim (and spec section 4.2 step 6) says the loop
continues after a short batch that exits sticky mode.  This theorem
evaluates the embedded code at the failing input. -/
theorem c2_termination_failing :
    scrapeStep 2
      { last_timestamp := 0, last_id := some "b", sticky_timestamp := some 1,
        store := [⟨1, "a"⟩, ⟨1, "b"⟩], count := 1, total_records := 2 }
      [⟨1, "c"⟩] =
    StepRes.done
      { last_timestamp := 1, last_id := none, sticky_timestamp := none,
        store := [⟨1, "a"⟩, ⟨1, "b"⟩, ⟨1, "c"⟩], count := 2, total_records := 3 } := by
  decide

/-- C3, counterexample: resuming is not idempotent.  Against the one-event
remote `remoteOne`, a completed run from the empty store stores the event
at timestamp 5; a second completed run against the same remote re-derives
cursor (4, none), re-fetches that event and appends it again
(total_records 1, not 0), because deduplication is batch-local and never
consults the store. -/
theorem c3_counterexample :
    (scrape remoteOne 1000 10 []).map ScrapeState.store = some [⟨5, "a"⟩] ∧
    (scrape remoteOne 1000 10 [⟨5, "a"⟩]).map ScrapeState.total_records = some 1 ∧
    (scrape remoteOne 1000 10 [⟨5, "a"⟩]).map ScrapeState.store =
      some [⟨5, "a"⟩, ⟨5, "a"⟩] := by
  refine ⟨by decide, by decide, by decide⟩

/-- C3 (amended): a second completed harvest run against the same remote
state appends at least one additional record whenever the first run stored
anything — the opposite of the claimed zero — because recovery steps the
cursor back to `L - 1` (L the last stored timestamp), the first fetch of
the resumed run therefore re-receives the last stored event, and the
batch-local deduplication appends it again. -/
theorem c3_resume_appends (remote : List Event) (at_once fuel1 fuel2 : Nat)
    (f1 f2 : ScrapeState) (hn : 0 < at_once)
    (h1 : scrape remote at_once fuel1 [] = some f1)
    (hne : f1.store ≠ [])
    (h2 : scrape remote at_once fuel2 f1.store = some f2) :
    f1.store.length < f2.store.length := by
  obtain ⟨eL, hlast⟩ := exists_getLast? hne
  have hmemL : eL ∈ f1.store := getLast?_mem hlast
  unfold scrape at h1 h2
  have hrem : eL ∈ remote := by
    rcases runScrape_store_mem h1 eL hmemL with h | h
    · exact absurd h (List.not_mem_nil eL)
    · exact h
  have hbw : buildWhere (initState f1.store) = Where.tsGt ((eL.timestamp : Int) - 1) := by
    simp [buildWhere, initState, recoverCursor, hlast]
  have hmatch : matchWhere (buildWhere (initState f1.store)) eL = true := by
    rw [hbw]
    simp only [matchWhere, decide_eq_true_iff]
    omega
  have hbne : fetch remote (buildWhere (initState f1.store)) at_once ≠ [] :=
    fetch_ne_nil hn hrem hmatch
  cases fuel2 with
  | zero => exact absurd h2 (by simp [runScrape])
  | succ k =>
    simp only [runScrape, scrapeIter] at h2
    rcases hstep : scrapeStep at_once (initState f1.store)
        (fetch remote (buildWhere (initState f1.store)) at_once) with st2 | st2 <;>
      rw [hstep] at h2
    · have hgrow : f1.store.length < st2.store.length := by
        rw [scrapeStep_cons_store hbne (Or.inl hstep)]
        have hinit : (initState f1.store).store = f1.store := rfl
        rw [hinit, List.length_append]
        have hpos : 0 <
            (dropDuplicatesById
              (sortBatch (fetch remote (buildWhere (initState f1.store)) at_once))).length :=
          List.length_pos.mpr (dropDuplicatesById_ne_nil (sortBatch_ne_nil hbne))
        omega
      exact lt_of_lt_of_le hgrow (runScrape_store_le h2)
    · have hf : f2 = st2 := by injection h2 with h3; exact h3.symm
      subst hf
      rw [scrapeStep_cons_store hbne (Or.inr hstep)]
      have hinit : (initState f1.store).store = f1.store := rfl
      rw [hinit, List.length_append]
      have hpos : 0 <
          (dropDuplicatesById
            (sortBatch (fetch remote (buildWhere (initState f1.store)) at_once))).length :=
        List.length_pos.mpr (dropDuplicatesById_ne_nil (sortBatch_ne_nil hbne))
      omega

/-- Witness for the amended C3 at the concrete remote `remoteOne`: both
runs complete, and the second run's store is strictly longer. -/
theorem c3_resume_appends_witness :
    scrape remoteOne 1000 10 [] =
      some { last_timestamp := 5, last_id := none, sticky_timestamp := none,
             store := [⟨5, "a"⟩], count := 1, total_records := 1 } ∧
    scrape remoteOne 1000 10 [⟨5, "a"⟩] =
      some { last_timestamp := 5, last_id := none, sticky_timestamp := none,
             store := [⟨5, "a"⟩, ⟨5, "a"⟩], count := 1, total_records := 1 } ∧
    ([(⟨5, "a"⟩ : Event)] : List Event).length <
      ([(⟨5, "a"⟩ : Event), ⟨5, "a"⟩] : List Event).length :=
  ⟨by decide, by decide,
    c3_resume_appends remoteOne 1000 10 10
      { last_timestamp := 5, last_id := none, sticky_timestamp := none,
        store := [⟨5, "a"⟩], count := 1, total_records := 1 }
      { last_timestamp := 5, last_id := none, sticky_timestamp := none,
        store := [⟨5, "a"⟩, ⟨5, "a"⟩], count := 1, total_records := 1 }
      (by decide) (by decide) (by decide) (by decide)⟩

/-- C4: zero-result transitions.  A successful fetch with zero results
while sticky switches to normal mode, sets the timestamp cursor to the
sticky timestamp, clears the id, and continues (`next`, store and counters
untouched); zero results while normal terminates the loop (`done`). -/
theorem c4_zero_result (n : Nat) (st : ScrapeState) :
    (∀ s : Nat, st.sticky_timestamp = some s →
        scrapeStep n st [] =
          StepRes.next
            { st with
              last_timestamp := (s : Int)
              sticky_timestamp := none
              last_id := none }) ∧
    (st.sticky_timestamp = none → scrapeStep n st [] = StepRes.done st) :=
  ⟨fun _ h => scrapeStep_nil_sticky h, fun h => scrapeStep_nil_normal h⟩

/-- Witness for C4 at concrete states: a sticky state at timestamp 7 and a
normal state. -/
theorem c4_zero_result_witness :
    scrapeStep 3
      { last_timestamp := 0, last_id := some "b", sticky_timestamp := some 7,
        store := [], count := 0, total_records := 0 } [] =
      StepRes.next
        { last_timestamp := 7, last_id := none, sticky_timestamp := none,
          store := [], count := 0, total_records := 0 } ∧
    scrapeStep 3
      { last_timestamp := 4, last_id := none, sticky_timestamp := none,
        store := [], count := 0, total_records := 0 } [] =
      StepRes.done
        { last_timestamp := 4, last_id := none, sticky_timestamp := none,
          store := [], count := 0, total_records := 0 } :=
  ⟨(c4_zero_result 3
      { last_timestamp := 0, last_id := some "b", sticky_timestamp := some 7,
        store := [], count := 0, total_records := 0 }).1 7 rfl,
   (c4_zero_result 3
      { last_timestamp := 4, last_id := none, sticky_timestamp := none,
        store := [], count := 0, total_records := 0 }).2 rfl⟩

/-- C5: full-batch sticky entry.  For every batch of exactly `page_size`
results, after the defensive sort the harvester enters (or stays in)
STICKY mode with cursor timestamp the sorted batch's last timestamp and
cursor id its last id, and the loop continues (`next`).  The statement
quantifies over every such batch, so it covers both the case where the
batch's first and last timestamps coincide and the case where they differ
(the two sub-branches at lines 149 and 154 assign identically). -/
theorem c5_full_batch_sticky (n : Nat) (st : ScrapeState) (batch : List Event)
    (hne : batch ≠ []) (hlen : batch.length = n) :
    (advanceState n st (sortBatch batch)).sticky_timestamp =
        some (lastTs (sortBatch batch)) ∧
    (advanceState n st (sortBatch batch)).last_id = some (lastId (sortBatch batch)) ∧
    scrapeStep n st batch =
      StepRes.next (appendBatch (advanceState n st (sortBatch batch)) (sortBatch batch)) := by
  have hlen2 : (sortBatch batch).length = n := by rw [sortBatch_length, hlen]
  have hfull : n ≤ (sortBatch batch).length := le_of_eq hlen2.symm
  have hnot : ¬ ((dropDuplicatesById (sortBatch batch)).length < n ∧
      (advanceState n st (sortBatch batch)).sticky_timestamp = none) := by
    rintro ⟨-, h2⟩
    rw [advanceState_full hfull] at h2
    exact Option.some_ne_none _ h2
  refine ⟨?_, ?_, ?_⟩
  · rw [advanceState_full hfull]
  · rw [advanceState_full hfull]
  · rw [scrapeStep_cons hne, if_neg hnot]

/-- Witness for C5 at a concrete full batch (page size 2, two events at
timestamp 1 given in reverse id order): the sticky cursor lands on the
sorted batch's last element (1, "b"). -/
theorem c5_full_batch_sticky_witness :
    ((advanceState 2 (initState []) (sortBatch [⟨1, "b"⟩, ⟨1, "a"⟩])).sticky_timestamp =
        some (lastTs (sortBatch [⟨1, "b"⟩, ⟨1, "a"⟩])) ∧
      (advanceState 2 (initState []) (sortBatch [⟨1, "b"⟩, ⟨1, "a"⟩])).last_id =
        some (lastId (sortBatch [⟨1, "b"⟩, ⟨1, "a"⟩])) ∧
      scrapeStep 2 (initState []) [⟨1, "b"⟩, ⟨1, "a"⟩] =
        StepRes.next
          (appendBatch (advanceState 2 (initState []) (sortBatch [⟨1, "b"⟩, ⟨1, "a"⟩]))
            (sortBatch [⟨1, "b"⟩, ⟨1, "a"⟩]))) ∧
    lastTs (sortBatch [⟨1, "b"⟩, ⟨1, "a"⟩]) = 1 ∧
    lastId (sortBatch [⟨1, "b"⟩, ⟨1, "a"⟩]) = "b" :=
  ⟨c5_full_batch_sticky 2 (initState []) [⟨1, "b"⟩, ⟨1, "a"⟩] (by decide) (by decide),
   by decide, by decide⟩

/-- C6: the cursor recovery contract.  `get_latest_cursor` is a total
function (it never raises to its caller — every failure path of the source
falls through to a default), it returns `(0, none)` for an absent or empty
store, its id component is always `none`, and on any store file it returns
`(L - 1, none)` when the timestamp field of the last persisted record
reads as the integer `L` (the spec-side `specLastRecordTimestamp`) and
`(0, none)` in every other — malformed — case. -/
theorem c6_cursor_recovery :
    get_latest_cursor none = (0, none) ∧
    get_latest_cursor (some []) = (0, none) ∧
    (∀ file, (get_latest_cursor file).2 = none) ∧
    (∀ lines,
      get_latest_cursor (some lines) =
        match specLastRecordTimestamp lines with
        | some L => (L - 1, none)
        | none => (0, none)) := by
  refine ⟨rfl, rfl, ?_, glc_spec_eq⟩
  intro file
  cases file with
  | none => rfl
  | some lines =>
    rw [glc_spec_eq lines]
    cases specLastRecordTimestamp lines <;> rfl

/-- C7, counterexample: the ordering invariant fails for a resumed run.
A first run from the empty store against `remotePair` stores (5,a), (5,b);
a resumed run against the same remote re-derives cursor (4, none),
re-fetches both events and appends them behind (5,b), leaving the store
unsorted by (timestamp, id). -/
theorem c7_counterexample :
    (scrape remotePair 1000 10 []).map ScrapeState.store =
      some [⟨5, "a"⟩, ⟨5, "b"⟩] ∧
    (scrape remotePair 1000 10 [⟨5, "a"⟩, ⟨5, "b"⟩]).map ScrapeState.store =
      some [⟨5, "a"⟩, ⟨5, "b"⟩, ⟨5, "a"⟩, ⟨5, "b"⟩] ∧
    ¬ ([(⟨5, "a"⟩ : Event), ⟨5, "b"⟩, ⟨5, "a"⟩, ⟨5, "b"⟩] : List Event).Sorted eventLe := by
  refine ⟨by decide, by decide, by decide⟩

/-- C7 (amended): the ordering invariant holds for every append of a run
started from the empty store.  `LoopInv` — which contains strict
(timestamp, id) sortedness of the store — holds of the initial state of a
run from the empty store and is preserved by every iteration of the
harvest loop against any remote, so after every completed batch append of
such a run the store is sorted by (timestamp, id) ascending, timestamps
compared as integers and ids as opaque strings.  A resumed run starts
outside `LoopInv` and can break the order (see the counterexample). -/
theorem c7_sorted_from_empty (remote : List Event) (n : Nat) (st st' : ScrapeState)
    (hInv : LoopInv st)
    (h : scrapeStep n st (fetch remote (buildWhere st) n) = StepRes.next st' ∨
         scrapeStep n st (fetch remote (buildWhere st) n) = StepRes.done st') :
    (st'.store.Sorted eventLe ∧ LoopInv st') ∧ LoopInv (initState []) := by
  have hinv2 := loopInv_step hInv h
  exact ⟨⟨List.Pairwise.imp (fun hab => eventLe_of_eventLt hab) hinv2.1, hinv2⟩,
    loopInv_init_empty⟩

/-- Witness for C7: one iteration from the empty store against
`remotePair` appends both events and the resulting store is sorted. -/
theorem c7_sorted_witness :
    (([(⟨5, "a"⟩ : Event), ⟨5, "b"⟩] : List Event).Sorted eventLe ∧
      LoopInv { last_timestamp := 5, last_id := none, sticky_timestamp := none,
                store := [⟨5, "a"⟩, ⟨5, "b"⟩], count := 1, total_records := 2 }) ∧
    LoopInv (initState []) :=
  c7_sorted_from_empty remotePair 1000 (initState [])
    { last_timestamp := 5, last_id := none, sticky_timestamp := none,
      store := [⟨5, "a"⟩, ⟨5, "b"⟩], count := 1, total_records := 2 }
    loopInv_init_empty (Or.inr (by decide))

/-- C8, counterexample: the no-duplicate-id invariant fails for a resumed
run.  A first run from the empty store against `remotePair` stores (5,a),
(5,b); a resumed run re-fetches and re-appends both, so the store holds
the id "a" (and "b") twice — deduplication is batch-local and never
compares against the store. -/
theorem c8_counterexample :
    (scrape remotePair 1000 10 []).map ScrapeState.store =
      some [⟨5, "a"⟩, ⟨5, "b"⟩] ∧
    (scrape remotePair 1000 10 [⟨5, "a"⟩, ⟨5, "b"⟩]).map ScrapeState.store =
      some [⟨5, "a"⟩, ⟨5, "b"⟩, ⟨5, "a"⟩, ⟨5, "b"⟩] ∧
    ¬ (([(⟨5, "a"⟩ : Event), ⟨5, "b"⟩, ⟨5, "a"⟩, ⟨5, "b"⟩] : List Event).map Event.id).Nodup := by
  refine ⟨by decide, by decide, by decide⟩

/-- C8 (amended): for a remote source whose event ids are pairwise
distinct, every iteration of a run started from the empty store preserves
"the store contains no two records with the same id" (together with
store-contents ⊆ remote), and the append performed by an iteration is
exactly `store ++ dropDuplicatesById (sorted batch)` — computed from the
fetched batch alone, never comparing against the store.  A resumed run
violates the invariant (see the counterexample), and without the
distinct-ids hypothesis even a run from the empty store can store one id
at two different timestamps. -/
theorem c8_nodup_from_empty (remote : List Event) (n : Nat) (st st' : ScrapeState)
    (hids : (remote.map Event.id).Nodup)
    (hsub : ∀ e ∈ st.store, e ∈ remote)
    (hnd : (st.store.map Event.id).Nodup)
    (hInv : LoopInv st)
    (h : scrapeStep n st (fetch remote (buildWhere st) n) = StepRes.next st' ∨
         scrapeStep n st (fetch remote (buildWhere st) n) = StepRes.done st') :
    (st'.store.map Event.id).Nodup ∧ (∀ e ∈ st'.store, e ∈ remote) ∧
    (st'.store = st.store ++ dropDuplicatesById (sortBatch (fetch remote (buildWhere st) n)) ∨
     st'.store = st.store) := by
  by_cases hb : fetch remote (buildWhere st) n = []
  · rw [hb] at h
    have hst : st'.store = st.store := scrapeStep_nil_store h
    rw [hst]
    exact ⟨hnd, hsub, Or.inr rfl⟩
  · have hshape := scrapeStep_cons_store hb h
    refine ⟨?_, ?_, Or.inl hshape⟩
    · rw [hshape, List.map_append, List.nodup_append]
      refine ⟨hnd, dropDuplicatesById_ids_nodup _, ?_⟩
      intro v hv1 hv2
      rcases List.mem_map.mp hv1 with ⟨a, ha, rfl⟩
      rcases List.mem_map.mp hv2 with ⟨b, hbm, hba⟩
      have hbf : b ∈ fetch remote (buildWhere st) n :=
        mem_sortBatch.mp (dropDuplicatesById_subset hbm)
      have hab : a = b :=
        List.inj_on_of_nodup_map hids (hsub a ha) (mem_fetch hbf).2 hba.symm
      exact eventLt_ne (store_lt_batch hInv ha hbf) hab
    · intro e he
      rw [hshape] at he
      rcases List.mem_append.mp he with h2 | h2
      · exact hsub e h2
      · exact (mem_fetch (mem_sortBatch.mp (dropDuplicatesById_subset h2))).2

/-- Witness for C8: one iteration from the empty store against
`remotePair` (distinct ids) appends both events; the resulting store has
no duplicate ids, is contained in the remote, and equals the batch-local
append. -/
theorem c8_nodup_witness :
    ((([(⟨5, "a"⟩ : Event), ⟨5, "b"⟩] : List Event).map Event.id).Nodup ∧
      (∀ e ∈ ([(⟨5, "a"⟩ : Event), ⟨5, "b"⟩] : List Event), e ∈ remotePair) ∧
      (([(⟨5, "a"⟩ : Event), ⟨5, "b"⟩] : List Event) =
          (initState []).store ++
            dropDuplicatesById
              (sortBatch (fetch remotePair (buildWhere (initState [])) 1000)) ∨
        ([(⟨5, "a"⟩ : Event), ⟨5, "b"⟩] : List Event) = (initState []).store)) :=
  c8_nodup_from_empty remotePair 1000 (initState [])
    { last_timestamp := 5, last_id := none, sticky_timestamp := none,
      store := [⟨5, "a"⟩, ⟨5, "b"⟩], count := 1, total_records := 2 }
    (by decide) (by decide) (by decide) loopInv_init_empty (Or.inr (by decide))

/-- C9: remote-error atomicity and retry.  When the fetch inside the
try/except fails, the iteration returns `next` with the state —
cursor (timestamp, id, sticky mode), store, and counters — unchanged, so
the next attempt rebuilds the identical where-clause (`buildWhere` of the
same state); and a failed fetch is never a terminal outcome of the loop
(`done`), so transport errors are retried and never surfaced as harvester
failure.  The fixed 5-second delay is real time and has no counterpart in
the model. -/
theorem c9_error_retry (n : Nat) (st : ScrapeState) :
    scrapeIter n st FetchResult.err = StepRes.next st ∧
    ∀ f : ScrapeState, scrapeIter n st FetchResult.err ≠ StepRes.done f :=
  ⟨rfl, fun _ h => by simp [scrapeIter] at h⟩

/-- C10: the implicit cursor-shape invariant.  At the start of every run
the recovered cursor has no id and sticky mode is off; every loop
iteration preserves "last_id is present iff sticky_timestamp is present"
(`CursorShape`); and the where-clause built in normal mode is a pure
`timestamp_gt` filter, mentioning no id. -/
theorem c10_cursor_shape (s0 : List Event) (n : Nat) (st st' : ScrapeState)
    (batch : List Event) (hsh : CursorShape st)
    (h : scrapeStep n st batch = StepRes.next st' ∨ scrapeStep n st batch = StepRes.done st') :
    CursorShape (initState s0) ∧ CursorShape st' ∧
    (st.sticky_timestamp = none → buildWhere st = Where.tsGt st.last_timestamp) :=
  ⟨cursorShape_init s0, cursorShape_step hsh h,
   fun hn => by simp [buildWhere, hn]⟩

/-- Witness for C10 at a concrete sticky state (timestamp 1, id "b") fed a
zero-result batch: the cursor shapes before and after are legal. -/
theorem c10_cursor_shape_witness :
    CursorShape (initState []) ∧
    CursorShape
      { last_timestamp := 1, last_id := none, sticky_timestamp := none,
        store := [], count := 0, total_records := 0 } ∧
    (({ last_timestamp := 0, last_id := some "b", sticky_timestamp := some 1,
        store := [], count := 0, total_records := 0 } : ScrapeState).sticky_timestamp = none →
      buildWhere
        { last_timestamp := 0, last_id := some "b", sticky_timestamp := some 1,
          store := [], count := 0, total_records := 0 } = Where.tsGt 0) :=
  c10_cursor_shape [] 2
    { last_timestamp := 0, last_id := some "b", sticky_timestamp := some 1,
      store := [], count := 0, total_records := 0 }
    { last_timestamp := 1, last_id := none, sticky_timestamp := none,
      store := [], count := 0, total_records := 0 }
    [] (Or.inr ⟨1, "b", rfl, rfl⟩) (Or.inl (by decide))

lemma natToDigits_ne_nil (n : Nat) : natToDigits n ≠ [] := by
  unfold natToDigits
  split
  · simp
  · simp

lemma digitVal?_digitChar {d : Nat} (h : d < 10) : digitVal? (Nat.digitChar d) = some d := by
  interval_cases d <;> decide

lemma digitsToNatGo_append (l1 l2 : List Char) : ∀ acc : Nat,
    digitsToNatGo acc (l1 ++ l2) =
      match digitsToNatGo acc l1 with
      | some a => digitsToNatGo a l2
      | none => none := by
  induction l1 with
  | nil => intro acc; rfl
  | cons c cs ih =>
    intro acc
    cases h : digitVal? c with
    | none => simp [digitsToNatGo, h]
    | some d => simp [digitsToNatGo, h, ih]

lemma digitsToNatGo_natToDigits (n : Nat) : ∀ acc : Nat,
    digitsToNatGo acc (natToDigits n) =
      some (acc * 10 ^ (natToDigits n).length + n) := by
  induction n using Nat.strong_induction_on with
  | _ n ih =>
    intro acc
    unfold natToDigits
    split
    case isTrue h =>
      simp [digitsToNatGo, digitVal?_digitChar h]
    case isFalse h =>
      rw [digitsToNatGo_append]
      rw [ih (n / 10) (Nat.div_lt_self (by omega) (by omega))]
      dsimp only
      have h10 : n % 10 < 10 := Nat.mod_lt n (by omega)
      simp only [digitsToNatGo, digitVal?_digitChar h10, List.length_append,
        List.length_singleton]
      congr 1
      calc (acc * 10 ^ (natToDigits (n / 10)).length + n / 10) * 10 + n % 10
          = acc * (10 ^ (natToDigits (n / 10)).length * 10) + (n / 10 * 10 + n % 10) := by
            ring
        _ = acc * 10 ^ ((natToDigits (n / 10)).length + 1) + n := by
            rw [pow_succ]
            congr 1
            omega

lemma digitsToNat?_natToDigits (n : Nat) : digitsToNat? (natToDigits n) = some n := by
  unfold digitsToNat?
  rw [if_neg (by simp [natToDigits_ne_nil n])]
  rw [digitsToNatGo_natToDigits]
  simp

lemma natToDigits_head (n : Nat) :
    ∃ d cs, natToDigits n = Nat.digitChar d :: cs ∧ d < 10 := by
  induction n using Nat.strong_induction_on with
  | _ n ih =>
    unfold natToDigits
    split
    case isTrue h => exact ⟨n, [], rfl, h⟩
    case isFalse h =>
      obtain ⟨d, cs, heq, hd⟩ := ih (n / 10) (Nat.div_lt_self (by omega) (by omega))
      exact ⟨d, cs ++ [Nat.digitChar (n % 10)], by rw [heq]; rfl, hd⟩

lemma digitChar_ne_minus {d : Nat} (h : d < 10) : Nat.digitChar d ≠ '-' := by
  interval_cases d <;> decide

lemma parseInt?_natToString (n : Nat) : parseInt? (natToString n) = some (n : Int) := by
  obtain ⟨d, cs, heq, hd⟩ := natToDigits_head n
  unfold parseInt? natToString
  dsimp only
  rw [heq]
  dsimp only
  rw [if_neg (digitChar_ne_minus hd), ← heq, digitsToNat?_natToDigits]
  rfl

lemma encodeStore_getLast {store : List Event} {eL : Event}
    (hlast : store.getLast? = some eL) :
    (encodeStore store).getLast? = some (encodeRow eL) := by
  cases store with
  | nil => simp at hlast
  | cons a t =>
    unfold encodeStore
    rw [List.map_cons, List.getLast?_cons_cons, ← List.map_cons, List.getLast?_map,
      hlast]
    rfl

/-- Recovery on the encoded store file computes exactly the event-level
cursor the loop model uses: the (timestamp - 1, none) contract. -/
lemma get_latest_cursor_encode (store : List Event) (hne : store ≠ []) :
    get_latest_cursor (some (encodeStore store)) = recoverCursor store := by
  obtain ⟨eL, hlast⟩ := exists_getLast? hne
  rw [glc_spec_eq]
  have hspec : specLastRecordTimestamp (encodeStore store) = some ((eL.timestamp : Int)) := by
    unfold specLastRecordTimestamp
    rw [show (encodeStore store).head? = some COLUMNS_TO_SAVE from rfl]
    dsimp only
    rw [if_pos (by decide), encodeStore_getLast hlast]
    rw [show List.indexOf "timestamp" COLUMNS_TO_SAVE = 0 from by decide]
    simp only [Option.getD_some]
    rw [show (encodeRow eL).get? 0 = some (natToString eL.timestamp) from rfl]
    exact parseInt?_natToString eL.timestamp
  rw [hspec]
  unfold recoverCursor
  rw [hlast]
